import Mathlib

/-!
Verification of `src/loss_grad_softmax.py`: softmax (cross-entropy) and
multiclass SVM (hinge) loss/gradient kernels for a linear classifier.

Shallow embedding conventions:
* a K×D numpy array is a function `Fin K → Fin D → ℝ`;
* floating point is modelled by exact real arithmetic;
* `y` is a vector of class labels; for the mathematical claims labels are
  `Fin K` (the valid range), and a separate "checked" layer models numpy's
  integer indexing (negative-index wrapping, IndexError) with `Option`.
-/

namespace SoftmaxSVM

open Finset

/-- Maximum entry of a nonempty array, as computed by `np.max`. -/
def arrMax {ι : Type} [Fintype ι] [Nonempty ι] (f : ι → ℝ) : ℝ :=
  Finset.univ.sup' Finset.univ_nonempty f

/-- `scores = W.dot(X)`: the K×N score matrix `S[k,n] = Σ_d W[k,d]·X[d,n]`.
The naive loop computes the same entries one class at a time
(`scores[cls] = w.dot(sample_x)`). -/
def scoreMat {K D N : ℕ} (W : Fin K → Fin D → ℝ) (X : Fin D → Fin N → ℝ) :
    Fin K → Fin N → ℝ :=
  fun k n => ∑ d, W k d * X d n

/-- `np.sum(W * W)`, the elementwise squared norm used by the regularizer. -/
def sumSq {K D : ℕ} (W : Fin K → Fin D → ℝ) : ℝ :=
  ∑ k, ∑ d, W k d * W k d

/-- Softmax probability of class `k` for a score vector `s`:
`np.exp(scores) / np.sum(np.exp(scores))` at index `k`. -/
noncomputable def softmaxProb {K : ℕ} (s : Fin K → ℝ) (k : Fin K) : ℝ :=
  Real.exp (s k) / ∑ j, Real.exp (s j)

/-- Per-sample shifted scores of the naive loop:
`scores -= np.max(scores)` applied to column `i` of the score matrix. -/
noncomputable def naiveShifted {K D N : ℕ} [NeZero K] (W : Fin K → Fin D → ℝ)
    (X : Fin D → Fin N → ℝ) (i : Fin N) : Fin K → ℝ :=
  fun c => scoreMat W X c i - arrMax (fun c' => scoreMat W X c' i)

/-- Per-sample loss of the naive loop:
`-np.log(corr_cls_exp_score / sum_exp_scores)`. -/
noncomputable def naiveSampleLoss {K D N : ℕ} [NeZero K] (W : Fin K → Fin D → ℝ)
    (X : Fin D → Fin N → ℝ) (y : Fin N → Fin K) (i : Fin N) : ℝ :=
  -Real.log (softmaxProb (naiveShifted W X i) (y i))

/-- Per-sample gradient contribution of the naive loop at entry `(k, d)`:
`grad[j,:] += percent_exp_score[j] * sample_x` for every class `j`, then
`grad[correct_class,:] -= sample_x`. -/
noncomputable def naiveSampleGradTerm {K D N : ℕ} [NeZero K] (W : Fin K → Fin D → ℝ)
    (X : Fin D → Fin N → ℝ) (y : Fin N → Fin K) (i : Fin N) (k : Fin K) (d : Fin D) : ℝ :=
  softmaxProb (naiveShifted W X i) k * X d i - (if k = y i then X d i else 0)

/-- `loss_grad_softmax_naive(W, X, y, reg)` (exact real semantics): per-sample
loop with per-sample max shift; returns
`(Σ_i loss_i / N + 0.5·reg·Σ W², Σ_i grad_i / N + reg·W)`. -/
noncomputable def loss_grad_softmax_naive {K D N : ℕ} [NeZero K] (W : Fin K → Fin D → ℝ)
    (X : Fin D → Fin N → ℝ) (y : Fin N → Fin K) (reg : ℝ) :
    ℝ × (Fin K → Fin D → ℝ) :=
  ((∑ i, naiveSampleLoss W X y i) / N + 0.5 * reg * sumSq W,
   fun k d => (∑ i, naiveSampleGradTerm W X y i k d) / N + reg * W k d)

/-- Global shift of the vectorized form: `scores -= np.max(scores)` with a
single scalar maximum over the whole K×N matrix. -/
noncomputable def vecShifted {K D N : ℕ} [NeZero K] [NeZero N] (W : Fin K → Fin D → ℝ)
    (X : Fin D → Fin N → ℝ) : Fin K → Fin N → ℝ :=
  fun k n => scoreMat W X k n - arrMax (fun p : Fin K × Fin N => scoreMat W X p.1 p.2)

/-- `loss_grad_softmax_vectorized(W, X, y, reg)` (exact real semantics):
`loss = -np.sum(np.log(correct_scores_exp / scores_exp_sum)) / N + 0.5·reg·Σ W²`,
`grad = (P - 1_{y}) · Xᵀ / N + reg·W` where `P = scores_exp / scores_exp_sum`. -/
noncomputable def loss_grad_softmax_vectorized {K D N : ℕ} [NeZero K] [NeZero N]
    (W : Fin K → Fin D → ℝ) (X : Fin D → Fin N → ℝ) (y : Fin N → Fin K) (reg : ℝ) :
    ℝ × (Fin K → Fin D → ℝ) :=
  (-(∑ n, Real.log (softmaxProb (fun c => vecShifted W X c n) (y n))) / N
     + 0.5 * reg * sumSq W,
   fun k d =>
     (∑ n, (softmaxProb (fun c => vecShifted W X c n) k - (if k = y n then 1 else 0)) * X d n) / N
       + reg * W k d)

/-- Comparison form of the naive softmax objective with the stabilization
shift removed (unshifted scores), used to state shift-invariance. -/
noncomputable def loss_grad_softmax_naive_noshift {K D N : ℕ} (W : Fin K → Fin D → ℝ)
    (X : Fin D → Fin N → ℝ) (y : Fin N → Fin K) (reg : ℝ) :
    ℝ × (Fin K → Fin D → ℝ) :=
  ((∑ i, -Real.log (softmaxProb (fun c => scoreMat W X c i) (y i))) / N
     + 0.5 * reg * sumSq W,
   fun k d =>
     (∑ i, (softmaxProb (fun c => scoreMat W X c i) k * X d i
        - (if k = y i then X d i else 0))) / N + reg * W k d)

/-- Comparison form of the vectorized softmax objective with the global
stabilization shift removed. -/
noncomputable def loss_grad_softmax_vectorized_noshift {K D N : ℕ} (W : Fin K → Fin D → ℝ)
    (X : Fin D → Fin N → ℝ) (y : Fin N → Fin K) (reg : ℝ) :
    ℝ × (Fin K → Fin D → ℝ) :=
  (-(∑ n, Real.log (softmaxProb (fun c => scoreMat W X c n) (y n))) / N
     + 0.5 * reg * sumSq W,
   fun k d =>
     (∑ n, (softmaxProb (fun c => scoreMat W X c n) k - (if k = y n then 1 else 0)) * X d n) / N
       + reg * W k d)

/-- `margins_mat` of `loss_grad_svm_vectorized` after both steps:
`margins_mat = np.maximum(0, scores_mat - correct_class_score + delta)`
followed by `margins_mat[y, xrange(num_train)] = 0` (`delta = 1.0`). -/
noncomputable def svmMargins {K D N : ℕ} (W : Fin K → Fin D → ℝ) (X : Fin D → Fin N → ℝ)
    (y : Fin N → Fin K) : Fin K → Fin N → ℝ :=
  fun k n =>
    if k = y n then 0
    else max 0 (scoreMat W X k n - scoreMat W X (y n) n + 1)

/-- `num_pos = np.sum(margins_mat > 0, axis=0)`: per-sample count of strictly
positive margins (the true-class entry was zeroed, so it never counts). -/
noncomputable def svmNumPos {K D N : ℕ} (W : Fin K → Fin D → ℝ) (X : Fin D → Fin N → ℝ)
    (y : Fin N → Fin K) (n : Fin N) : ℝ :=
  ∑ k, if 0 < svmMargins W X y k n then (1 : ℝ) else 0

/-- `scores_mat_grad`: zeros, then `1` where `margins_mat > 0`, then the
true-class entry of each column overwritten with `-num_pos`. -/
noncomputable def svmGradMat {K D N : ℕ} (W : Fin K → Fin D → ℝ) (X : Fin D → Fin N → ℝ)
    (y : Fin N → Fin K) : Fin K → Fin N → ℝ :=
  fun k n =>
    if k = y n then -svmNumPos W X y n
    else if 0 < svmMargins W X y k n then 1 else 0

/-- `loss_grad_svm_vectorized(W, X, y, reg)` (exact real semantics):
`loss = np.sum(margins_mat)/num_train + 0.5·reg·Σ W²`,
`dW = scores_mat_grad.dot(X.T)/num_train + reg·W`. -/
noncomputable def loss_grad_svm_vectorized {K D N : ℕ} (W : Fin K → Fin D → ℝ)
    (X : Fin D → Fin N → ℝ) (y : Fin N → Fin K) (reg : ℝ) :
    ℝ × (Fin K → Fin D → ℝ) :=
  ((∑ k, ∑ n, svmMargins W X y k n) / N + 0.5 * reg * sumSq W,
   fun k d => (∑ n, svmGradMat W X y k n * X d n) / N + reg * W k d)

/-- Margin matrix as the spec describes it (section 4.4 step 3):
`margin[k,n] = max(0, S[k,n] − correct[n] + delta)` with `delta = 1.0`. -/
noncomputable def svmMarginSpec {K D N : ℕ} (W : Fin K → Fin D → ℝ) (X : Fin D → Fin N → ℝ)
    (y : Fin N → Fin K) : Fin K → Fin N → ℝ :=
  fun k n => max 0 (scoreMat W X k n - scoreMat W X (y n) n + 1)

/-- `numPos[n]` as the claim words it: the count of classes `k ≠ y[n]` with
`margin[k,n] > 0`. -/
noncomputable def svmNumPosSpec {K D N : ℕ} (W : Fin K → Fin D → ℝ) (X : Fin D → Fin N → ℝ)
    (y : Fin N → Fin K) (n : Fin N) : ℝ :=
  ((Finset.univ.filter fun k => k ≠ y n ∧ 0 < svmMarginSpec W X y k n).card : ℝ)

/-- Indicator matrix as the claim words it: `I[k,n] = 1` exactly when
`margin[k,n] > 0` and `k ≠ y[n]`, `0` otherwise off the true class, and
`I[y[n],n] = −numPos[n]`. -/
noncomputable def svmIndicatorSpec {K D N : ℕ} (W : Fin K → Fin D → ℝ) (X : Fin D → Fin N → ℝ)
    (y : Fin N → Fin K) : Fin K → Fin N → ℝ :=
  fun k n =>
    if k = y n then -svmNumPosSpec W X y n
    else if 0 < svmMarginSpec W X y k n then 1 else 0

/-- Per-sample softmax data loss as the spec describes it (section 4.2):
`−log(p[y[n]])` for the probability vector of sample `n`. -/
noncomputable def softmaxSampleLoss {K D N : ℕ} (W : Fin K → Fin D → ℝ)
    (X : Fin D → Fin N → ℝ) (y : Fin N → Fin K) (i : Fin N) : ℝ :=
  -Real.log (softmaxProb (fun c => scoreMat W X c i) (y i))

/-- Per-sample softmax data gradient as the spec describes it (section 4.2,
step 5): `p[j]·X[:,n]` for every class `j`, minus `X[:,n]` on the true row. -/
noncomputable def softmaxSampleGrad {K D N : ℕ} (W : Fin K → Fin D → ℝ)
    (X : Fin D → Fin N → ℝ) (y : Fin N → Fin K) (i : Fin N) : Fin K → Fin D → ℝ :=
  fun k d => softmaxProb (fun c => scoreMat W X c i) k * X d i - (if k = y i then X d i else 0)

/-- Per-sample hinge data loss: the sum of sample `n`'s margins. -/
noncomputable def svmSampleLoss {K D N : ℕ} (W : Fin K → Fin D → ℝ)
    (X : Fin D → Fin N → ℝ) (y : Fin N → Fin K) (n : Fin N) : ℝ :=
  ∑ k, svmMargins W X y k n

/-- Per-sample hinge data gradient: column `n` of the indicator matrix times
sample `n`. -/
noncomputable def svmSampleGrad {K D N : ℕ} (W : Fin K → Fin D → ℝ)
    (X : Fin D → Fin N → ℝ) (y : Fin N → Fin K) (n : Fin N) : Fin K → Fin D → ℝ :=
  fun k d => svmGradMat W X y k n * X d n

/-- numpy integer indexing into an axis of length `K`: indices in `[0, K)` are
used directly, indices in `[-K, 0)` wrap around to `K + i` (numpy negative
indexing), anything else raises `IndexError`, modelled as `none`. -/
def npIdx (K : ℕ) (i : ℤ) : Option (Fin K) :=
  if h : 0 ≤ i ∧ i < (K : ℤ) then some ⟨i.toNat, by omega⟩
  else if h2 : -(K : ℤ) ≤ i ∧ i < 0 then some ⟨(i + K).toNat, by omega⟩
  else none

/-- Resolution of a raw integer label vector, as performed by numpy fancy
indexing (`a[y, range(num_train)]`) and by `scores[correct_class]` in the
naive loop: every label must resolve, otherwise `IndexError` (`none`). -/
def resolveLabels (K : ℕ) {N : ℕ} (y : Fin N → ℤ) : Option (Fin N → Fin K) :=
  if h : ∀ n, (npIdx K (y n)).isSome then
    some fun n => (npIdx K (y n)).get (h n)
  else none

/-- `loss_grad_softmax_naive` on raw integer labels, modelling the Python-level
failure modes as `none`: with `N = 0` the trailing `loss /= num_train` divides
the int `0` by the int `0` (`ZeroDivisionError`); with `N ≥ 1` and `K = 0`
`np.max(scores)` is applied to an empty array and raises; a label outside
`[-K, K)` makes `scores[correct_class]` raise `IndexError`. -/
noncomputable def loss_grad_softmax_naive_run {K D N : ℕ} (W : Fin K → Fin D → ℝ)
    (X : Fin D → Fin N → ℝ) (y : Fin N → ℤ) (reg : ℝ) :
    Option (ℝ × (Fin K → Fin D → ℝ)) :=
  if _hN : N = 0 then none
  else if hK : K = 0 then none
  else
    haveI : NeZero K := ⟨hK⟩
    match resolveLabels K y with
    | none => none
    | some y0 => some (loss_grad_softmax_naive W X y0 reg)

/-- `loss_grad_softmax_vectorized` on raw integer labels: `np.max(scores)`
raises on an empty score matrix (`K = 0` or `N = 0`), and the fancy index
`scores_exp[y, range(num_train)]` raises `IndexError` for any label outside
`[-K, K)`. -/
noncomputable def loss_grad_softmax_vectorized_run {K D N : ℕ} (W : Fin K → Fin D → ℝ)
    (X : Fin D → Fin N → ℝ) (y : Fin N → ℤ) (reg : ℝ) :
    Option (ℝ × (Fin K → Fin D → ℝ)) :=
  if hKN : K = 0 ∨ N = 0 then none
  else
    haveI : NeZero K := ⟨fun h => hKN (Or.inl h)⟩
    haveI : NeZero N := ⟨fun h => hKN (Or.inr h)⟩
    match resolveLabels K y with
    | none => none
    | some y0 => some (loss_grad_softmax_vectorized W X y0 reg)

/-- `loss_grad_svm_vectorized` on raw integer labels: the fancy index
`scores_mat[y, xrange(num_train)]` raises `IndexError` for any label outside
`[-K, K)`. (With `N = 0` numpy's `np.sum(..)/num_train` silently produces NaN
rather than raising; that float-special case carries over as the `ℝ`
convention `x / 0 = 0` and is not relied on by any claim.) -/
noncomputable def loss_grad_svm_vectorized_run {K D N : ℕ} (W : Fin K → Fin D → ℝ)
    (X : Fin D → Fin N → ℝ) (y : Fin N → ℤ) (reg : ℝ) :
    Option (ℝ × (Fin K → Fin D → ℝ)) :=
  match resolveLabels K y with
  | none => none
  | some y0 => some (loss_grad_svm_vectorized W X y0 reg)

/-! Concrete inputs used by counterexamples and witnesses. -/

/-- 2-class, 1-feature weight matrix `[[2],[0]]`. -/
def W2 : Fin 2 → Fin 1 → ℝ := ![![2], ![0]]

/-- Single sample `[[1]]`. -/
def X2 : Fin 1 → Fin 1 → ℝ := ![![1]]

/-- Single valid label `0`. -/
def y2 : Fin 1 → Fin 2 := ![0]

/-- Single raw integer label `-1` (out of `[0, K)` but in numpy wrap range). -/
def yNeg : Fin 1 → ℤ := fun _ => -1

/-- Spec scenario weights `[[1,0],[0,1],[0,0]]` (K=3, D=2). -/
def W6 : Fin 3 → Fin 2 → ℝ := ![![1, 0], ![0, 1], ![0, 0]]

/-- Spec scenario batch `[[1],[0]]` (D=2, N=1). -/
def X6 : Fin 2 → Fin 1 → ℝ := ![![1], ![0]]

/-- Spec scenario label vector `[0]`. -/
def y6 : Fin 1 → Fin 3 := ![0]

/-- 1×1 weight matrix `[[1]]` for the empty-batch scenario. -/
def W0 : Fin 1 → Fin 1 → ℝ := fun _ _ => 1

/-- Empty batch: a D×N array with N = 0. -/
def X0 : Fin 1 → Fin 0 → ℝ := fun _ => Fin.elim0

/-- Empty integer label vector. -/
def y0 : Fin 0 → ℤ := Fin.elim0

/-- Single raw integer label `5`, far outside `[-K, K)` for small `K`. -/
def yFar : Fin 1 → ℤ := fun _ => 5

/-- All-ones 1×1 weight matrix for witnesses. -/
def W1 : Fin 1 → Fin 1 → ℝ := fun _ _ => 1

/-- All-ones 1×1 batch for witnesses. -/
def X1 : Fin 1 → Fin 1 → ℝ := fun _ _ => 1

/-- The only possible label vector at K = N = 1. -/
def y1 : Fin 1 → Fin 1 := fun _ => 0

/-! ### Buffer-identity model for the mutation claim

numpy arrays live in buffers; an operation either allocates a fresh result
buffer (`np.dot`, `np.exp`, `np.maximum`, elementwise `/`, `np.zeros`, fancy
indexing reads) or writes an existing buffer in place (`-=`, `/=`, `+=`,
`a[i] = v`, `a[mask] = v`). The model tags every array value with its buffer
id and records each in-place write; basic slices (`X[:, i]`, `W[cls, :]`) are
views sharing the parent's buffer id. -/

/-- Allocator state: next fresh buffer id, and every buffer id written in
place so far. -/
structure NpState where
  nextId : ℕ
  writtenIds : List ℕ

/-- An array value tagged with the identity of its backing buffer. -/
structure Arr (α : Type) where
  id : ℕ
  data : α

/-- A numpy operation that allocates a fresh result buffer. -/
def npAlloc {α : Type} (a : α) (s : NpState) : Arr α × NpState :=
  (⟨s.nextId, a⟩, ⟨s.nextId + 1, s.writtenIds⟩)

/-- An in-place update of an existing buffer: the id is kept and the write is
recorded. -/
def npInplace {α : Type} (arr : Arr α) (f : α → α) (s : NpState) : Arr α × NpState :=
  (⟨arr.id, f arr.data⟩, ⟨s.nextId, arr.id :: s.writtenIds⟩)

/-- One iteration of the naive softmax loop, in the buffer model:
`sample_x = X[:, i]` (a view of `X`), `scores = np.zeros(K)`, the
`scores[cls] = w.dot(sample_x)` fill (K in-place writes, recorded once),
`scores -= np.max(scores)`, `np.exp(scores)` and
`percent_exp_score = np.exp(scores) / sum_exp_scores` (fresh temporaries),
then the in-place `grad[j,:] += ...` / `grad[correct_class,:] -=` updates. -/
noncomputable def naiveAllocStep {K D N : ℕ} [NeZero K] (W : Arr (Fin K → Fin D → ℝ))
    (X : Arr (Fin D → Fin N → ℝ)) (y : Arr (Fin N → Fin K)) (i : Fin N)
    (acc : (ℝ × Arr (Fin K → Fin D → ℝ)) × NpState) :
    (ℝ × Arr (Fin K → Fin D → ℝ)) × NpState :=
  let sample_x : Arr (Fin D → ℝ) := ⟨X.id, fun d => X.data d i⟩
  let r1 := npAlloc (fun (_ : Fin K) => (0 : ℝ)) acc.2
  let r2 := npInplace r1.1 (fun _ c => ∑ d, W.data c d * sample_x.data d) r1.2
  let r3 := npInplace r2.1 (fun v c => v c - arrMax v) r2.2
  let r4 := npAlloc (fun c => Real.exp (r3.1.data c)) r3.2
  let sumExp := ∑ c, r4.1.data c
  let lossI := -Real.log (Real.exp (r3.1.data (y.data i)) / sumExp)
  let r5 := npAlloc (fun c => r4.1.data c / sumExp) r4.2
  let r6 := npInplace acc.1.2
    (fun G k d => G k d + r5.1.data k * sample_x.data d
      - (if k = y.data i then sample_x.data d else 0)) r5.2
  ((acc.1.1 + lossI, r6.1), r6.2)

/-- `loss_grad_softmax_naive` in the buffer model: allocate
`grad = np.zeros_like(W)`, run the per-sample loop, then the in-place
`grad /= num_train` and `grad += reg * W`. -/
noncomputable def loss_grad_softmax_naive_alloc {K D N : ℕ} [NeZero K]
    (W : Arr (Fin K → Fin D → ℝ)) (X : Arr (Fin D → Fin N → ℝ))
    (y : Arr (Fin N → Fin K)) (reg : ℝ) (s0 : NpState) :
    (ℝ × Arr (Fin K → Fin D → ℝ)) × NpState :=
  let r0 := npAlloc (fun (_ : Fin K) (_ : Fin D) => (0 : ℝ)) s0
  let rloop := (List.finRange N).foldl (fun acc i => naiveAllocStep W X y i acc)
    ((0, r0.1), r0.2)
  let r1 := npInplace rloop.1.2 (fun G k d => G k d / N) rloop.2
  let r2 := npInplace r1.1 (fun G k d => G k d + reg * W.data k d) r1.2
  ((rloop.1.1 / N + 0.5 * reg * sumSq W.data, r2.1), r2.2)

/-- `loss_grad_softmax_vectorized` in the buffer model, line by line:
`grad = np.zeros_like(W)`, `scores = W.dot(X)`, in-place
`scores -= np.max(scores)`, `scores_exp = np.exp(scores)`,
`correct_scores_exp = scores_exp[y, range(num_train)]` (fancy read, fresh),
`scores_exp_sum = np.sum(scores_exp, axis=0)`,
`scores_exp_normalized = scores_exp / scores_exp_sum`, in-place
`scores_exp_normalized[y, range(num_train)] -= 1`,
`grad = scores_exp_normalized.dot(X.T)` (fresh buffer, rebinding `grad`),
in-place `grad /= num_train` and `grad += reg * W`. -/
noncomputable def loss_grad_softmax_vectorized_alloc {K D N : ℕ} [NeZero K] [NeZero N]
    (W : Arr (Fin K → Fin D → ℝ)) (X : Arr (Fin D → Fin N → ℝ))
    (y : Arr (Fin N → Fin K)) (reg : ℝ) (s0 : NpState) :
    (ℝ × Arr (Fin K → Fin D → ℝ)) × NpState :=
  let r1 := npAlloc (fun (_ : Fin K) (_ : Fin D) => (0 : ℝ)) s0
  let r2 := npAlloc (scoreMat W.data X.data) r1.2
  let r3 := npInplace r2.1
    (fun S k n => S k n - arrMax (fun p : Fin K × Fin N => S p.1 p.2)) r2.2
  let r4 := npAlloc (fun k n => Real.exp (r3.1.data k n)) r3.2
  let r5 := npAlloc (fun n => r4.1.data (y.data n) n) r4.2
  let r6 := npAlloc (fun n => ∑ k, r4.1.data k n) r5.2
  let loss := -(∑ n, Real.log (r5.1.data n / r6.1.data n)) / N + 0.5 * reg * sumSq W.data
  let r7 := npAlloc (fun k n => r4.1.data k n / r6.1.data n) r6.2
  let r8 := npInplace r7.1 (fun P k n => P k n - (if k = y.data n then 1 else 0)) r7.2
  let r9 := npAlloc (fun k d => ∑ n, r8.1.data k n * X.data d n) r8.2
  let r10 := npInplace r9.1 (fun G k d => G k d / N) r9.2
  let r11 := npInplace r10.1 (fun G k d => G k d + reg * W.data k d) r10.2
  ((loss, r11.1), r11.2)

/-- `loss_grad_svm_vectorized` in the buffer model, line by line:
`dW = np.zeros(W.shape)`, `scores_mat = W.dot(X)`,
`correct_class_score = scores_mat[y, xrange(num_train)]` (fancy read, fresh),
`margins_mat = scores_mat - correct_class_score + delta` (fresh),
`margins_mat = np.maximum(0, margins_mat)` (fresh, rebinding), in-place
`margins_mat[y, xrange(num_train)] = 0`,
`scores_mat_grad = np.zeros(scores_mat.shape)`,
`num_pos = np.sum(margins_mat > 0, axis=0)` (fresh), in-place
`scores_mat_grad[margins_mat > 0] = 1` and
`scores_mat_grad[y, xrange(num_train)] = -1 * num_pos`, then
`dW = scores_mat_grad.dot(X.T) / num_train + reg * W` (fresh, rebinding). -/
noncomputable def loss_grad_svm_vectorized_alloc {K D N : ℕ}
    (W : Arr (Fin K → Fin D → ℝ)) (X : Arr (Fin D → Fin N → ℝ))
    (y : Arr (Fin N → Fin K)) (reg : ℝ) (s0 : NpState) :
    (ℝ × Arr (Fin K → Fin D → ℝ)) × NpState :=
  let r1 := npAlloc (fun (_ : Fin K) (_ : Fin D) => (0 : ℝ)) s0
  let r2 := npAlloc (scoreMat W.data X.data) r1.2
  let r3 := npAlloc (fun n => r2.1.data (y.data n) n) r2.2
  let r4 := npAlloc (fun k n => r2.1.data k n - r3.1.data n + 1) r3.2
  let r5 := npAlloc (fun k n => max 0 (r4.1.data k n)) r4.2
  let r6 := npInplace r5.1 (fun M k n => if k = y.data n then 0 else M k n) r5.2
  let loss := (∑ k, ∑ n, r6.1.data k n) / N + 0.5 * reg * sumSq W.data
  let r7 := npAlloc (fun (_ : Fin K) (_ : Fin N) => (0 : ℝ)) r6.2
  let r8 := npAlloc (fun n => ∑ k, if 0 < r6.1.data k n then (1 : ℝ) else 0) r7.2
  let r9 := npInplace r7.1 (fun G k n => if 0 < r6.1.data k n then 1 else G k n) r8.2
  let r10 := npInplace r9.1 (fun G k n => if k = y.data n then -(r8.1.data n) else G k n) r9.2
  let r11 := npAlloc
    (fun k d => (∑ n, r10.1.data k n * X.data d n) / N + reg * W.data k d) r10.2
  ((loss, r11.1), r11.2)

/-! ### Basic lemmas -/

theorem le_arrMax {ι : Type} [Fintype ι] [Nonempty ι] (f : ι → ℝ) (i : ι) :
    f i ≤ arrMax f :=
  Finset.le_sup' f (Finset.mem_univ i)

theorem arrMax_le {ι : Type} [Fintype ι] [Nonempty ι] (f : ι → ℝ) (a : ℝ)
    (h : ∀ i, f i ≤ a) : arrMax f ≤ a :=
  Finset.sup'_le _ _ fun i _ => h i

theorem exp_sum_pos {K : ℕ} [NeZero K] (s : Fin K → ℝ) :
    0 < ∑ j, Real.exp (s j) :=
  Finset.sum_pos (fun j _ => Real.exp_pos (s j)) Finset.univ_nonempty

/-- Shift invariance of softmax probabilities: subtracting a constant from
every score leaves each probability unchanged. -/
theorem softmaxProb_shift {K : ℕ} [NeZero K] (s : Fin K → ℝ) (c : ℝ) (k : Fin K) :
    softmaxProb (fun j => s j - c) k = softmaxProb s k := by
  unfold softmaxProb
  have hsum : ∑ j, Real.exp (s j - c) = (∑ j, Real.exp (s j)) / Real.exp c := by
    rw [Finset.sum_div]
    refine Finset.sum_congr rfl fun j _ => ?_
    rw [Real.exp_sub]
  rw [hsum, Real.exp_sub]
  rw [div_div_div_cancel_right₀ (Real.exp_ne_zero c)]

theorem softmaxProb_pos {K : ℕ} [NeZero K] (s : Fin K → ℝ) (k : Fin K) :
    0 < softmaxProb s k :=
  div_pos (Real.exp_pos (s k)) (exp_sum_pos s)

theorem softmaxProb_le_one {K : ℕ} [NeZero K] (s : Fin K → ℝ) (k : Fin K) :
    softmaxProb s k ≤ 1 := by
  rw [softmaxProb, div_le_one (exp_sum_pos s)]
  exact Finset.single_le_sum (f := fun j => Real.exp (s j))
    (fun j _ => (Real.exp_pos (s j)).le) (Finset.mem_univ k)

theorem softmaxProb_sum {K : ℕ} [NeZero K] (s : Fin K → ℝ) :
    ∑ k, softmaxProb s k = 1 := by
  unfold softmaxProb
  rw [← Finset.sum_div, div_self (exp_sum_pos s).ne']

theorem naive_eq_noshift {K D N : ℕ} [NeZero K] (W : Fin K → Fin D → ℝ)
    (X : Fin D → Fin N → ℝ) (y : Fin N → Fin K) (reg : ℝ) :
    loss_grad_softmax_naive W X y reg = loss_grad_softmax_naive_noshift W X y reg := by
  unfold loss_grad_softmax_naive loss_grad_softmax_naive_noshift
  have hp : ∀ (i : Fin N) (k : Fin K),
      softmaxProb (naiveShifted W X i) k = softmaxProb (fun c => scoreMat W X c i) k := by
    intro i k
    exact softmaxProb_shift (fun c => scoreMat W X c i) (arrMax fun c' => scoreMat W X c' i) k
  simp only [Prod.mk.injEq]
  constructor
  · congr 2
    refine Finset.sum_congr rfl fun i _ => ?_
    rw [naiveSampleLoss, hp]
  · funext k d
    congr 2
    refine Finset.sum_congr rfl fun i _ => ?_
    rw [naiveSampleGradTerm, hp]

theorem vectorized_eq_noshift {K D N : ℕ} [NeZero K] [NeZero N] (W : Fin K → Fin D → ℝ)
    (X : Fin D → Fin N → ℝ) (y : Fin N → Fin K) (reg : ℝ) :
    loss_grad_softmax_vectorized W X y reg
      = loss_grad_softmax_vectorized_noshift W X y reg := by
  unfold loss_grad_softmax_vectorized loss_grad_softmax_vectorized_noshift
  have hp : ∀ (n : Fin N) (k : Fin K),
      softmaxProb (fun c => vecShifted W X c n) k
        = softmaxProb (fun c => scoreMat W X c n) k := by
    intro n k
    have := softmaxProb_shift (fun c => scoreMat W X c n)
      (arrMax fun p : Fin K × Fin N => scoreMat W X p.1 p.2) k
    simpa [vecShifted] using this
  simp only [Prod.mk.injEq]
  constructor
  · have hs : (∑ n, Real.log (softmaxProb (fun c => vecShifted W X c n) (y n)))
        = ∑ n, Real.log (softmaxProb (fun c => scoreMat W X c n) (y n)) :=
      Finset.sum_congr rfl fun n _ => by rw [hp]
    rw [hs]
  · funext k d
    have hs : (∑ n, (softmaxProb (fun c => vecShifted W X c n) k
          - (if k = y n then 1 else 0)) * X d n)
        = ∑ n, (softmaxProb (fun c => scoreMat W X c n) k
          - (if k = y n then 1 else 0)) * X d n :=
      Finset.sum_congr rfl fun n _ => by rw [hp]
    rw [hs]

theorem vectorized_noshift_eq_naive_noshift {K D N : ℕ} (W : Fin K → Fin D → ℝ)
    (X : Fin D → Fin N → ℝ) (y : Fin N → Fin K) (reg : ℝ) :
    loss_grad_softmax_vectorized_noshift W X y reg
      = loss_grad_softmax_naive_noshift W X y reg := by
  unfold loss_grad_softmax_vectorized_noshift loss_grad_softmax_naive_noshift
  simp only [Prod.mk.injEq]
  constructor
  · congr 1
    rw [← Finset.sum_neg_distrib]
  · funext k d
    congr 2
    refine Finset.sum_congr rfl fun n _ => ?_
    by_cases h : k = y n
    · rw [if_pos h, if_pos h]
      ring
    · rw [if_neg h, if_neg h]
      ring

theorem naive_eq_vectorized {K D N : ℕ} [NeZero K] [NeZero N] (W : Fin K → Fin D → ℝ)
    (X : Fin D → Fin N → ℝ) (y : Fin N → Fin K) (reg : ℝ) :
    loss_grad_softmax_naive W X y reg = loss_grad_softmax_vectorized W X y reg := by
  rw [naive_eq_noshift, vectorized_eq_noshift, vectorized_noshift_eq_naive_noshift]

theorem npIdx_eq_none {K : ℕ} {i : ℤ} (h : i < -(K : ℤ) ∨ (K : ℤ) ≤ i) :
    npIdx K i = none := by
  unfold npIdx
  rw [dif_neg (by omega), dif_neg (by omega)]

theorem npIdx_neg_wrap {K : ℕ} {i : ℤ} (h1 : -(K : ℤ) ≤ i) (h2 : i < 0) :
    npIdx K i = some ⟨(i + K).toNat, by omega⟩ := by
  unfold npIdx
  rw [dif_neg (by omega), dif_pos ⟨h1, h2⟩]

theorem resolveLabels_eq_none {K N : ℕ} {y : Fin N → ℤ} (n : Fin N)
    (h : y n < -(K : ℤ) ∨ (K : ℤ) ≤ y n) : resolveLabels K y = none := by
  unfold resolveLabels
  rw [dif_neg]
  intro hall
  have hn := hall n
  rw [npIdx_eq_none h] at hn
  simp at hn

theorem sumSq_nonneg {K D : ℕ} (W : Fin K → Fin D → ℝ) : 0 ≤ sumSq W :=
  Finset.sum_nonneg fun k _ => Finset.sum_nonneg fun d _ => mul_self_nonneg (W k d)

theorem regTerm_nonneg {K D : ℕ} (W : Fin K → Fin D → ℝ) (reg : ℝ) (hreg : 0 ≤ reg) :
    0 ≤ 0.5 * reg * sumSq W :=
  mul_nonneg (mul_nonneg (by norm_num) hreg) (sumSq_nonneg W)

theorem noshift_loss_nonneg {K D N : ℕ} [NeZero K] (W : Fin K → Fin D → ℝ)
    (X : Fin D → Fin N → ℝ) (y : Fin N → Fin K) (reg : ℝ) (hreg : 0 ≤ reg) :
    0 ≤ (loss_grad_softmax_naive_noshift W X y reg).1 := by
  unfold loss_grad_softmax_naive_noshift
  dsimp only
  have h1 : 0 ≤ ∑ i, -Real.log (softmaxProb (fun c => scoreMat W X c i) (y i)) := by
    refine Finset.sum_nonneg fun i _ => ?_
    have hp := softmaxProb_pos (fun c => scoreMat W X c i) (y i)
    have hle := softmaxProb_le_one (fun c => scoreMat W X c i) (y i)
    have hlog := Real.log_nonpos hp.le hle
    linarith
  have h2 := regTerm_nonneg W reg hreg
  have h3 : (0 : ℝ) ≤ N := Nat.cast_nonneg N
  have h4 := div_nonneg h1 h3
  linarith

theorem svmMargins_nonneg {K D N : ℕ} (W : Fin K → Fin D → ℝ) (X : Fin D → Fin N → ℝ)
    (y : Fin N → Fin K) (k : Fin K) (n : Fin N) : 0 ≤ svmMargins W X y k n := by
  unfold svmMargins
  by_cases h : k = y n
  · rw [if_pos h]
  · rw [if_neg h]
    exact le_max_left 0 _

theorem svm_loss_nonneg {K D N : ℕ} (W : Fin K → Fin D → ℝ) (X : Fin D → Fin N → ℝ)
    (y : Fin N → Fin K) (reg : ℝ) (hreg : 0 ≤ reg) :
    0 ≤ (loss_grad_svm_vectorized W X y reg).1 := by
  unfold loss_grad_svm_vectorized
  dsimp only
  have h1 : 0 ≤ ∑ k, ∑ n, svmMargins W X y k n :=
    Finset.sum_nonneg fun k _ => Finset.sum_nonneg fun n _ => svmMargins_nonneg W X y k n
  have h2 := regTerm_nonneg W reg hreg
  have h4 := div_nonneg h1 (Nat.cast_nonneg (α := ℝ) N)
  linarith

theorem noshift_grad_row_sum {K D N : ℕ} [NeZero K] (W : Fin K → Fin D → ℝ)
    (X : Fin D → Fin N → ℝ) (y : Fin N → Fin K) (d : Fin D) :
    ∑ k, (loss_grad_softmax_naive_noshift W X y 0).2 k d = 0 := by
  unfold loss_grad_softmax_naive_noshift
  dsimp only
  simp only [zero_mul, add_zero]
  rw [← Finset.sum_div, Finset.sum_comm]
  have hz : ∀ i ∈ (Finset.univ : Finset (Fin N)),
      (∑ k, (softmaxProb (fun c => scoreMat W X c i) k * X d i
        - (if k = y i then X d i else 0))) = 0 := by
    intro i _
    rw [Finset.sum_sub_distrib, ← Finset.sum_mul, softmaxProb_sum, one_mul,
      Finset.sum_ite_eq' Finset.univ (y i) (fun _ => X d i),
      if_pos (Finset.mem_univ (y i)), sub_self]
  rw [Finset.sum_eq_zero hz, zero_div]

theorem svmMargins_self {K D N : ℕ} (W : Fin K → Fin D → ℝ) (X : Fin D → Fin N → ℝ)
    (y : Fin N → Fin K) (n : Fin N) : svmMargins W X y (y n) n = 0 := by
  unfold svmMargins
  rw [if_pos rfl]

theorem svmGradMat_col_sum {K D N : ℕ} (W : Fin K → Fin D → ℝ) (X : Fin D → Fin N → ℝ)
    (y : Fin N → Fin K) (n : Fin N) : ∑ k, svmGradMat W X y k n = 0 := by
  rw [Fintype.sum_eq_add_sum_compl (y n)]
  have h1 : svmGradMat W X y (y n) n = -svmNumPos W X y n := by
    unfold svmGradMat
    rw [if_pos rfl]
  have h2 : ∀ k ∈ ({y n}ᶜ : Finset (Fin K)), svmGradMat W X y k n
      = if 0 < svmMargins W X y k n then (1 : ℝ) else 0 := by
    intro k hk
    have hkn : k ≠ y n := by simpa using hk
    unfold svmGradMat
    rw [if_neg hkn]
  have h3 : svmNumPos W X y n
      = ∑ k ∈ ({y n}ᶜ : Finset (Fin K)), if 0 < svmMargins W X y k n then (1 : ℝ) else 0 := by
    unfold svmNumPos
    rw [Fintype.sum_eq_add_sum_compl (y n), svmMargins_self]
    simp
  rw [h1, Finset.sum_congr rfl h2, h3]
  ring

theorem svm_grad_row_sum {K D N : ℕ} (W : Fin K → Fin D → ℝ) (X : Fin D → Fin N → ℝ)
    (y : Fin N → Fin K) (d : Fin D) :
    ∑ k, (loss_grad_svm_vectorized W X y 0).2 k d = 0 := by
  unfold loss_grad_svm_vectorized
  dsimp only
  simp only [zero_mul, add_zero]
  rw [← Finset.sum_div, Finset.sum_comm]
  have hz : ∀ n ∈ (Finset.univ : Finset (Fin N)),
      (∑ k, svmGradMat W X y k n * X d n) = 0 := by
    intro n _
    rw [← Finset.sum_mul, svmGradMat_col_sum, zero_mul]
  rw [Finset.sum_eq_zero hz, zero_div]

/-! ### Claim theorems -/

/-- Claim C1: for every valid input (`N ≥ 1`, `K ≥ 1`, labels in `[0,K)`,
`reg ≥ 0`), `loss_grad_softmax_naive` and `loss_grad_softmax_vectorized`
return the same result under exact real arithmetic — equal loss and equal
gradient — even though the naive form subtracts a per-sample maximum and the
vectorized form a single global batch maximum; in particular the loss agrees
within `1e-7` relative and every gradient entry within `1e-6` absolute. -/
theorem claim_C1_naive_vectorized_equivalent {K D N : ℕ} [NeZero K] [NeZero N]
    (W : Fin K → Fin D → ℝ) (X : Fin D → Fin N → ℝ) (y : Fin N → Fin K) (reg : ℝ)
    (_hreg : 0 ≤ reg) :
    loss_grad_softmax_naive W X y reg = loss_grad_softmax_vectorized W X y reg ∧
    |(loss_grad_softmax_vectorized W X y reg).1 - (loss_grad_softmax_naive W X y reg).1|
      ≤ (1 / 10000000) * |(loss_grad_softmax_naive W X y reg).1| ∧
    ∀ (k : Fin K) (d : Fin D),
      |(loss_grad_softmax_vectorized W X y reg).2 k d
        - (loss_grad_softmax_naive W X y reg).2 k d| ≤ 1 / 1000000 := by
  have h := naive_eq_vectorized W X y reg
  refine ⟨h, ?_, ?_⟩
  · rw [h, sub_self, abs_zero]
    positivity
  · intro k d
    rw [h, sub_self, abs_zero]
    norm_num

theorem claim_C1_naive_vectorized_equivalent_witness :
    (0 : ℝ) ≤ 0 ∧
    (loss_grad_softmax_naive W1 X1 y1 0 = loss_grad_softmax_vectorized W1 X1 y1 0 ∧
     |(loss_grad_softmax_vectorized W1 X1 y1 0).1 - (loss_grad_softmax_naive W1 X1 y1 0).1|
       ≤ (1 / 10000000) * |(loss_grad_softmax_naive W1 X1 y1 0).1| ∧
     ∀ (k : Fin 1) (d : Fin 1),
       |(loss_grad_softmax_vectorized W1 X1 y1 0).2 k d
         - (loss_grad_softmax_naive W1 X1 y1 0).2 k d| ≤ 1 / 1000000) :=
  ⟨le_refl 0, claim_C1_naive_vectorized_equivalent W1 X1 y1 0 (le_refl 0)⟩

/-- Claim C2: subtracting any constant `c` from all of a sample's scores
before exponentiation leaves the computed probability vector
`exp(s−c)/Σexp(s−c)` and the sample's loss contribution `−log(p[y[n]])`
unchanged; consequently the max-shift performed by both softmax
implementations does not change the returned loss or gradient relative to
using unshifted scores. -/
theorem claim_C2_shift_invariance {K D N : ℕ} [NeZero K] [NeZero N] :
    (∀ (s : Fin K → ℝ) (c : ℝ) (k : Fin K),
      softmaxProb (fun j => s j - c) k = softmaxProb s k ∧
      -Real.log (softmaxProb (fun j => s j - c) k) = -Real.log (softmaxProb s k)) ∧
    ∀ (W : Fin K → Fin D → ℝ) (X : Fin D → Fin N → ℝ) (y : Fin N → Fin K) (reg : ℝ),
      loss_grad_softmax_naive W X y reg = loss_grad_softmax_naive_noshift W X y reg ∧
      loss_grad_softmax_vectorized W X y reg
        = loss_grad_softmax_vectorized_noshift W X y reg := by
  constructor
  · intro s c k
    have h := softmaxProb_shift s c k
    exact ⟨h, by rw [h]⟩
  · intro W X y reg
    exact ⟨naive_eq_noshift W X y reg, vectorized_eq_noshift W X y reg⟩

theorem claim_C2_shift_invariance_witness :
    (∀ (s : Fin 2 → ℝ) (c : ℝ) (k : Fin 2),
      softmaxProb (fun j => s j - c) k = softmaxProb s k ∧
      -Real.log (softmaxProb (fun j => s j - c) k) = -Real.log (softmaxProb s k)) ∧
    ∀ (W : Fin 2 → Fin 1 → ℝ) (X : Fin 1 → Fin 1 → ℝ) (y : Fin 1 → Fin 2) (reg : ℝ),
      loss_grad_softmax_naive W X y reg = loss_grad_softmax_naive_noshift W X y reg ∧
      loss_grad_softmax_vectorized W X y reg
        = loss_grad_softmax_vectorized_noshift W X y reg :=
  claim_C2_shift_invariance (K := 2) (D := 1) (N := 1)

/-- Claim C8: for every valid input with `reg ≥ 0`, the losses returned by all
three objective functions are non-negative: each per-sample cross-entropy
term `−log(p[y[n]])` is non-negative because `0 < p[y[n]] ≤ 1`, every hinge
margin is non-negative, and the regularization term `0.5·reg·Σ W²` is
non-negative. -/
theorem claim_C8_loss_nonneg {K D N : ℕ} [NeZero K] [NeZero N]
    (W : Fin K → Fin D → ℝ) (X : Fin D → Fin N → ℝ) (y : Fin N → Fin K) (reg : ℝ)
    (hreg : 0 ≤ reg) :
    0 ≤ (loss_grad_softmax_naive W X y reg).1 ∧
    0 ≤ (loss_grad_softmax_vectorized W X y reg).1 ∧
    0 ≤ (loss_grad_svm_vectorized W X y reg).1 := by
  refine ⟨?_, ?_, svm_loss_nonneg W X y reg hreg⟩
  · rw [naive_eq_noshift]
    exact noshift_loss_nonneg W X y reg hreg
  · rw [vectorized_eq_noshift, vectorized_noshift_eq_naive_noshift]
    exact noshift_loss_nonneg W X y reg hreg

theorem claim_C8_loss_nonneg_witness :
    (0 : ℝ) ≤ 0 ∧
    (0 ≤ (loss_grad_softmax_naive W1 X1 y1 0).1 ∧
     0 ≤ (loss_grad_softmax_vectorized W1 X1 y1 0).1 ∧
     0 ≤ (loss_grad_svm_vectorized W1 X1 y1 0).1) :=
  ⟨le_refl 0, claim_C8_loss_nonneg W1 X1 y1 0 (le_refl 0)⟩

/-- Claim C10: with `reg = 0`, the gradient returned by each of the three
objective functions has columns of the class axis summing to zero:
`∑_k grad[k,d] = 0` for every feature `d`, because each softmax probability
column sums to `1` with an extra `−1` at the true class, and each indicator
column sums to `numPos − numPos = 0`. -/
theorem claim_C10_grad_rows_sum_zero {K D N : ℕ} [NeZero K] [NeZero N]
    (W : Fin K → Fin D → ℝ) (X : Fin D → Fin N → ℝ) (y : Fin N → Fin K) :
    (∀ d, ∑ k, (loss_grad_softmax_naive W X y 0).2 k d = 0) ∧
    (∀ d, ∑ k, (loss_grad_softmax_vectorized W X y 0).2 k d = 0) ∧
    (∀ d, ∑ k, (loss_grad_svm_vectorized W X y 0).2 k d = 0) := by
  refine ⟨?_, ?_, fun d => svm_grad_row_sum W X y d⟩
  · intro d
    rw [naive_eq_noshift]
    exact noshift_grad_row_sum W X y d
  · intro d
    rw [vectorized_eq_noshift, vectorized_noshift_eq_naive_noshift]
    exact noshift_grad_row_sum W X y d

theorem claim_C10_grad_rows_sum_zero_witness :
    (∀ d, ∑ k, (loss_grad_softmax_naive W1 X1 y1 0).2 k d = 0) ∧
    (∀ d, ∑ k, (loss_grad_softmax_vectorized W1 X1 y1 0).2 k d = 0) ∧
    (∀ d, ∑ k, (loss_grad_svm_vectorized W1 X1 y1 0).2 k d = 0) :=
  claim_C10_grad_rows_sum_zero W1 X1 y1

theorem svmMargins_eq_spec {K D N : ℕ} (W : Fin K → Fin D → ℝ) (X : Fin D → Fin N → ℝ)
    (y : Fin N → Fin K) {k : Fin K} {n : Fin N} (h : k ≠ y n) :
    svmMargins W X y k n = svmMarginSpec W X y k n := by
  unfold svmMargins svmMarginSpec
  rw [if_neg h]

theorem svmNumPos_eq_spec {K D N : ℕ} (W : Fin K → Fin D → ℝ) (X : Fin D → Fin N → ℝ)
    (y : Fin N → Fin K) (n : Fin N) :
    svmNumPos W X y n = svmNumPosSpec W X y n := by
  unfold svmNumPos svmNumPosSpec
  rw [← Finset.sum_boole]
  refine Finset.sum_congr rfl fun k _ => ?_
  by_cases h : k = y n
  · subst h
    rw [if_neg, if_neg]
    · rintro ⟨hne, -⟩
      exact hne rfl
    · rw [svmMargins_self]
      exact lt_irrefl 0
  · rw [svmMargins_eq_spec W X y h]
    by_cases hpos : 0 < svmMarginSpec W X y k n
    · rw [if_pos hpos, if_pos ⟨h, hpos⟩]
    · rw [if_neg hpos, if_neg fun hc => hpos hc.2]

theorem svmGradMat_eq_spec {K D N : ℕ} (W : Fin K → Fin D → ℝ) (X : Fin D → Fin N → ℝ)
    (y : Fin N → Fin K) : svmGradMat W X y = svmIndicatorSpec W X y := by
  funext k n
  unfold svmGradMat svmIndicatorSpec
  by_cases h : k = y n
  · rw [if_pos h, if_pos h, svmNumPos_eq_spec]
  · rw [if_neg h, if_neg h, svmMargins_eq_spec W X y h]

theorem svmMargins_eq_zero_of_separated {K D N : ℕ} (W : Fin K → Fin D → ℝ)
    (X : Fin D → Fin N → ℝ) (y : Fin N → Fin K)
    (hsep : ∀ (n : Fin N) (k : Fin K), k ≠ y n →
      scoreMat W X k n + 1 ≤ scoreMat W X (y n) n)
    (k : Fin K) (n : Fin N) : svmMargins W X y k n = 0 := by
  unfold svmMargins
  by_cases h : k = y n
  · rw [if_pos h]
  · rw [if_neg h]
    have := hsep n k h
    exact max_eq_left (by linarith)

theorem sepcond_W2 : ∀ (n : Fin 1) (k : Fin 2), k ≠ y2 n →
    scoreMat W2 X2 k n + 1 ≤ scoreMat W2 X2 (y2 n) n := by
  intro n k hk
  fin_cases n
  fin_cases k
  · exact absurd rfl hk
  · simp [scoreMat, W2, X2, y2, Fin.sum_univ_one]

/-- Claim C4: for the hinge objective, the indicator matrix satisfies
`I[k,n] = 1` exactly when `margin[k,n] > 0` and `k ≠ y[n]`, `I[k,n] = 0`
otherwise off the true class, `I[y[n],n] = −numPos[n]` with `numPos[n]` the
count of classes `k ≠ y[n]` with positive margin, and the returned gradient
equals `(I · Xᵗ) / N + reg·W`. -/
theorem claim_C4_svm_indicator_grad {K D N : ℕ} (W : Fin K → Fin D → ℝ)
    (X : Fin D → Fin N → ℝ) (y : Fin N → Fin K) (reg : ℝ) :
    (∀ (n : Fin N) (k : Fin K), k ≠ y n →
      svmIndicatorSpec W X y k n = if 0 < svmMarginSpec W X y k n then 1 else 0) ∧
    (∀ n, svmIndicatorSpec W X y (y n) n = -svmNumPosSpec W X y n) ∧
    (loss_grad_svm_vectorized W X y reg).2
      = fun k d => (∑ n, svmIndicatorSpec W X y k n * X d n) / N + reg * W k d := by
  refine ⟨?_, ?_, ?_⟩
  · intro n k h
    unfold svmIndicatorSpec
    rw [if_neg h]
  · intro n
    unfold svmIndicatorSpec
    rw [if_pos rfl]
  · unfold loss_grad_svm_vectorized
    dsimp only
    rw [svmGradMat_eq_spec]

/-- Claim C5, amended: under the separation condition the data part of the
hinge loss vanishes, so the returned loss is exactly the regularization term
`0.5·reg·Σ W²`; with `reg = 0` the returned loss is exactly `0`. (As stated,
with `reg > 0` and `W ≠ 0`, the claim is false: see the counterexample.) -/
theorem claim_C5_svm_loss_reg_only {K D N : ℕ} (W : Fin K → Fin D → ℝ)
    (X : Fin D → Fin N → ℝ) (y : Fin N → Fin K) (reg : ℝ) (_hreg : 0 ≤ reg)
    (hsep : ∀ (n : Fin N) (k : Fin K), k ≠ y n →
      scoreMat W X k n + 1 ≤ scoreMat W X (y n) n) :
    (∑ k, ∑ n, svmMargins W X y k n) = 0 ∧
    (loss_grad_svm_vectorized W X y reg).1 = 0.5 * reg * sumSq W ∧
    (loss_grad_svm_vectorized W X y 0).1 = 0 := by
  have hz : (∑ k, ∑ n, svmMargins W X y k n) = 0 :=
    Finset.sum_eq_zero fun k _ => Finset.sum_eq_zero fun n _ =>
      svmMargins_eq_zero_of_separated W X y hsep k n
  refine ⟨hz, ?_, ?_⟩
  · unfold loss_grad_svm_vectorized
    dsimp only
    rw [hz, zero_div, zero_add]
  · unfold loss_grad_svm_vectorized
    dsimp only
    rw [hz, zero_div, zero_add]
    ring

theorem claim_C5_svm_loss_reg_only_witness :
    ((0 : ℝ) ≤ 0 ∧ ∀ (n : Fin 1) (k : Fin 2), k ≠ y2 n →
      scoreMat W2 X2 k n + 1 ≤ scoreMat W2 X2 (y2 n) n) ∧
    ((∑ k, ∑ n, svmMargins W2 X2 y2 k n) = 0 ∧
     (loss_grad_svm_vectorized W2 X2 y2 0).1 = 0.5 * 0 * sumSq W2 ∧
     (loss_grad_svm_vectorized W2 X2 y2 0).1 = 0) :=
  ⟨⟨le_refl 0, sepcond_W2⟩, claim_C5_svm_loss_reg_only W2 X2 y2 0 (le_refl 0) sepcond_W2⟩

/-- Counterexample to claim C5 as stated: on `W = [[2],[0]]`, `X = [[1]]`,
`y = [0]`, `reg = 1` — a valid input whose correct-class score exceeds every
other score by at least the margin `1.0` — the returned loss is `2`, not `0`,
because the loss includes the regularization term `0.5·reg·Σ W²`. -/
theorem claim_C5_counterexample :
    (∀ (n : Fin 1) (k : Fin 2), k ≠ y2 n →
      scoreMat W2 X2 k n + 1 ≤ scoreMat W2 X2 (y2 n) n) ∧
    (0 : ℝ) ≤ 1 ∧
    (loss_grad_svm_vectorized W2 X2 y2 1).1 = 2 := by
  refine ⟨sepcond_W2, by norm_num, ?_⟩
  have hz : (∑ k, ∑ n, svmMargins W2 X2 y2 k n) = 0 :=
    Finset.sum_eq_zero fun k _ => Finset.sum_eq_zero fun n _ =>
      svmMargins_eq_zero_of_separated W2 X2 y2 sepcond_W2 k n
  unfold loss_grad_svm_vectorized
  dsimp only
  rw [hz, zero_div, zero_add]
  norm_num [sumSq, W2, Fin.sum_univ_one, Fin.sum_univ_two]

/-- Claim C3, amended: a label outside `[-K, K)` makes each of the three
objective functions fail immediately with an index-out-of-range error and
return no result. (Labels in `[-K, 0)` — in particular `-1` — do NOT fail:
numpy silently wraps them to row `K + label`; see the counterexample.) -/
theorem claim_C3_far_label_fails {K D N : ℕ} (W : Fin K → Fin D → ℝ)
    (X : Fin D → Fin N → ℝ) (y : Fin N → ℤ) (reg : ℝ)
    (hbad : ∃ n, y n < -(K : ℤ) ∨ (K : ℤ) ≤ y n) :
    loss_grad_softmax_naive_run W X y reg = none ∧
    loss_grad_softmax_vectorized_run W X y reg = none ∧
    loss_grad_svm_vectorized_run W X y reg = none := by
  obtain ⟨n, hn⟩ := hbad
  have hres := resolveLabels_eq_none (K := K) n hn
  refine ⟨?_, ?_, ?_⟩
  · unfold loss_grad_softmax_naive_run
    by_cases hN : N = 0
    · rw [dif_pos hN]
    · rw [dif_neg hN]
      by_cases hK : K = 0
      · rw [dif_pos hK]
      · rw [dif_neg hK, hres]
  · unfold loss_grad_softmax_vectorized_run
    by_cases hKN : K = 0 ∨ N = 0
    · rw [dif_pos hKN]
    · rw [dif_neg hKN, hres]
  · unfold loss_grad_svm_vectorized_run
    rw [hres]

theorem claim_C3_far_label_fails_witness :
    (∃ n : Fin 1, yFar n < -((1 : ℕ) : ℤ) ∨ ((1 : ℕ) : ℤ) ≤ yFar n) ∧
    (loss_grad_softmax_naive_run W1 X1 yFar 0 = none ∧
     loss_grad_softmax_vectorized_run W1 X1 yFar 0 = none ∧
     loss_grad_svm_vectorized_run W1 X1 yFar 0 = none) :=
  ⟨⟨0, Or.inr (by decide)⟩,
   claim_C3_far_label_fails W1 X1 yFar 0 ⟨0, Or.inr (by decide)⟩⟩

/-- Counterexample to claim C3 as stated: the negative label `-1` lies outside
`[0, K)`, yet none of the three functions fails on it — each returns a result,
with the label silently mapped to the valid row `K - 1 = 1` by numpy
negative-index wrapping. -/
theorem claim_C3_counterexample :
    resolveLabels 2 yNeg = some (fun _ => (1 : Fin 2)) ∧
    loss_grad_softmax_naive_run W2 X2 yNeg 0
      = some (loss_grad_softmax_naive W2 X2 (fun _ => 1) 0) ∧
    loss_grad_softmax_vectorized_run W2 X2 yNeg 0
      = some (loss_grad_softmax_vectorized W2 X2 (fun _ => 1) 0) ∧
    loss_grad_svm_vectorized_run W2 X2 yNeg 0
      = some (loss_grad_svm_vectorized W2 X2 (fun _ => 1) 0) := by
  have hres : resolveLabels 2 yNeg = some fun _ => (1 : Fin 2) := by decide
  refine ⟨hres, ?_, ?_, ?_⟩
  · unfold loss_grad_softmax_naive_run
    rw [dif_neg (by norm_num), dif_neg (by norm_num), hres]
  · unfold loss_grad_softmax_vectorized_run
    rw [dif_neg (by norm_num), hres]
  · unfold loss_grad_svm_vectorized_run
    rw [hres]

/-- Claim C7, amended to batches with `N ≥ 1`: the returned loss decomposes
additively as (mean of per-sample data losses) plus `0.5·reg·Σ W²` and the
returned gradient as (mean of per-sample data gradients) plus `reg·W`, for
all three objectives; hence whenever every per-sample data loss is zero the
returned loss is exactly the regularization term. (At `N = 0` the softmax
implementations raise instead of returning `0.5·reg·Σ W²`: see the
counterexample.) -/
theorem claim_C7_additive_decomposition {K D N : ℕ} [NeZero K] [NeZero N]
    (W : Fin K → Fin D → ℝ) (X : Fin D → Fin N → ℝ) (y : Fin N → Fin K) (reg : ℝ) :
    ((loss_grad_softmax_naive W X y reg).1
        = (∑ i, softmaxSampleLoss W X y i) / N + 0.5 * reg * sumSq W ∧
     (loss_grad_softmax_naive W X y reg).2
        = fun k d => (∑ i, softmaxSampleGrad W X y i k d) / N + reg * W k d) ∧
    ((loss_grad_softmax_vectorized W X y reg).1
        = (∑ i, softmaxSampleLoss W X y i) / N + 0.5 * reg * sumSq W ∧
     (loss_grad_softmax_vectorized W X y reg).2
        = fun k d => (∑ i, softmaxSampleGrad W X y i k d) / N + reg * W k d) ∧
    ((loss_grad_svm_vectorized W X y reg).1
        = (∑ n, svmSampleLoss W X y n) / N + 0.5 * reg * sumSq W ∧
     (loss_grad_svm_vectorized W X y reg).2
        = fun k d => (∑ n, svmSampleGrad W X y n k d) / N + reg * W k d) ∧
    ((∀ i, softmaxSampleLoss W X y i = 0) →
      (loss_grad_softmax_vectorized W X y reg).1 = 0.5 * reg * sumSq W) ∧
    ((∀ n, svmSampleLoss W X y n = 0) →
      (loss_grad_svm_vectorized W X y reg).1 = 0.5 * reg * sumSq W) := by
  have hnaive1 : (loss_grad_softmax_naive W X y reg).1
      = (∑ i, softmaxSampleLoss W X y i) / N + 0.5 * reg * sumSq W := by
    rw [naive_eq_noshift]
    rfl
  have hnaive2 : (loss_grad_softmax_naive W X y reg).2
      = fun k d => (∑ i, softmaxSampleGrad W X y i k d) / N + reg * W k d := by
    rw [naive_eq_noshift]
    rfl
  have hvec : loss_grad_softmax_vectorized W X y reg
      = loss_grad_softmax_naive_noshift W X y reg := by
    rw [vectorized_eq_noshift, vectorized_noshift_eq_naive_noshift]
  have hsvm1 : (loss_grad_svm_vectorized W X y reg).1
      = (∑ n, svmSampleLoss W X y n) / N + 0.5 * reg * sumSq W := by
    unfold loss_grad_svm_vectorized svmSampleLoss
    dsimp only
    rw [Finset.sum_comm]
  refine ⟨⟨hnaive1, hnaive2⟩, ⟨by rw [hvec]; rfl, by rw [hvec]; rfl⟩, ⟨hsvm1, rfl⟩, ?_, ?_⟩
  · intro hall
    rw [hvec]
    show (∑ i, softmaxSampleLoss W X y i) / N + 0.5 * reg * sumSq W = 0.5 * reg * sumSq W
    rw [Finset.sum_eq_zero fun i _ => hall i, zero_div, zero_add]
  · intro hall
    rw [hsvm1, Finset.sum_eq_zero fun n _ => hall n, zero_div, zero_add]

theorem claim_C7_additive_decomposition_witness :
    ((loss_grad_softmax_naive W1 X1 y1 0).1
        = (∑ i, softmaxSampleLoss W1 X1 y1 i) / 1 + 0.5 * 0 * sumSq W1 ∧
     (loss_grad_softmax_naive W1 X1 y1 0).2
        = fun k d => (∑ i, softmaxSampleGrad W1 X1 y1 i k d) / 1 + 0 * W1 k d) ∧
    ((loss_grad_softmax_vectorized W1 X1 y1 0).1
        = (∑ i, softmaxSampleLoss W1 X1 y1 i) / 1 + 0.5 * 0 * sumSq W1 ∧
     (loss_grad_softmax_vectorized W1 X1 y1 0).2
        = fun k d => (∑ i, softmaxSampleGrad W1 X1 y1 i k d) / 1 + 0 * W1 k d) ∧
    ((loss_grad_svm_vectorized W1 X1 y1 0).1
        = (∑ n, svmSampleLoss W1 X1 y1 n) / 1 + 0.5 * 0 * sumSq W1 ∧
     (loss_grad_svm_vectorized W1 X1 y1 0).2
        = fun k d => (∑ n, svmSampleGrad W1 X1 y1 n k d) / 1 + 0 * W1 k d) ∧
    ((∀ i, softmaxSampleLoss W1 X1 y1 i = 0) →
      (loss_grad_softmax_vectorized W1 X1 y1 0).1 = 0.5 * 0 * sumSq W1) ∧
    ((∀ n, svmSampleLoss W1 X1 y1 n = 0) →
      (loss_grad_svm_vectorized W1 X1 y1 0).1 = 0.5 * 0 * sumSq W1) := by
  have h := claim_C7_additive_decomposition W1 X1 y1 0
  simpa using h

/-- Counterexample to claim C7 as stated: on the `N = 0` batch with
`K = D = 1`, `W = [[1]]`, `reg = 1`, no loss is returned at all — the naive
function divides `0/0` (`ZeroDivisionError`) and the vectorized function
applies `np.max` to an empty array — so neither returns
`0.5·reg·Σ W² = 0.5`. -/
theorem claim_C7_counterexample :
    loss_grad_softmax_naive_run W0 X0 y0 1 = none ∧
    loss_grad_softmax_vectorized_run W0 X0 y0 1 = none ∧
    0.5 * 1 * sumSq W0 = 0.5 := by
  refine ⟨?_, ?_, ?_⟩
  · unfold loss_grad_softmax_naive_run
    rw [dif_pos rfl]
  · unfold loss_grad_softmax_vectorized_run
    rw [dif_pos (Or.inr rfl)]
  · norm_num [sumSq, W0, Fin.sum_univ_one]

theorem score6_0 : scoreMat W6 X6 0 0 = 1 := by
  simp [scoreMat, W6, X6, Fin.sum_univ_two]

theorem score6_1 : scoreMat W6 X6 1 0 = 0 := by
  simp [scoreMat, W6, X6, Fin.sum_univ_two]

theorem score6_2 : scoreMat W6 X6 2 0 = 0 := by
  simp [scoreMat, W6, X6, Fin.sum_univ_two]

theorem score6 : (fun c => scoreMat W6 X6 c 0) = ![(1 : ℝ), 0, 0] := by
  funext c
  fin_cases c
  · simpa using score6_0
  · simpa using score6_1
  · simpa using score6_2

theorem score6_le (c : Fin 3) : scoreMat W6 X6 c 0 ≤ 1 := by
  fin_cases c <;> norm_num [scoreMat, W6, X6, Fin.sum_univ_two]

theorem max6 : arrMax (fun p : Fin 3 × Fin 1 => scoreMat W6 X6 p.1 p.2) = 1 := by
  apply le_antisymm
  · refine arrMax_le _ _ fun p => ?_
    have h2 : p.2 = 0 := Fin.eq_zero p.2
    rw [h2]
    exact score6_le p.1
  · have h := le_arrMax (fun p : Fin 3 × Fin 1 => scoreMat W6 X6 p.1 p.2) (0, 0)
    rw [score6_0] at h
    exact h

theorem naiveMax6 : arrMax (fun c : Fin 3 => scoreMat W6 X6 c 0) = 1 := by
  apply le_antisymm
  · exact arrMax_le _ _ score6_le
  · have h := le_arrMax (fun c : Fin 3 => scoreMat W6 X6 c 0) 0
    rw [score6_0] at h
    exact h

theorem shifted6 : (fun c => vecShifted W6 X6 c 0) = ![(0 : ℝ), -1, -1] := by
  funext c
  show scoreMat W6 X6 c 0 - arrMax (fun p : Fin 3 × Fin 1 => scoreMat W6 X6 p.1 p.2)
      = ![(0 : ℝ), -1, -1] c
  rw [max6]
  fin_cases c <;> norm_num [scoreMat, W6, X6, Fin.sum_univ_two]

theorem nshifted6 : naiveShifted W6 X6 0 = ![(0 : ℝ), -1, -1] := by
  funext c
  show scoreMat W6 X6 c 0 - arrMax (fun c' : Fin 3 => scoreMat W6 X6 c' 0)
      = ![(0 : ℝ), -1, -1] c
  rw [naiveMax6]
  fin_cases c <;> norm_num [scoreMat, W6, X6, Fin.sum_univ_two]

theorem expsum6 : ∑ j : Fin 3, Real.exp (scoreMat W6 X6 j 0) = Real.exp 1 + 2 := by
  rw [Fin.sum_univ_three, score6_0, score6_1, score6_2, Real.exp_zero]
  ring

theorem prob6_val0 : softmaxProb (fun c => scoreMat W6 X6 c 0) 0
    = Real.exp 1 / (Real.exp 1 + 2) := by
  unfold softmaxProb
  dsimp only
  rw [expsum6, score6_0]

theorem prob6_val1 : softmaxProb (fun c => scoreMat W6 X6 c 0) 1
    = 1 / (Real.exp 1 + 2) := by
  unfold softmaxProb
  dsimp only
  rw [expsum6, score6_1, Real.exp_zero]

theorem prob6_val2 : softmaxProb (fun c => scoreMat W6 X6 c 0) 2
    = 1 / (Real.exp 1 + 2) := by
  unfold softmaxProb
  dsimp only
  rw [expsum6, score6_2, Real.exp_zero]

theorem probshift6 (k : Fin 3) : softmaxProb (fun c => vecShifted W6 X6 c 0) k
    = softmaxProb (fun c => scoreMat W6 X6 c 0) k :=
  softmaxProb_shift (fun c => scoreMat W6 X6 c 0)
    (arrMax fun p : Fin 3 × Fin 1 => scoreMat W6 X6 p.1 p.2) k

theorem prob6_bound :
    |softmaxProb (fun c => vecShifted W6 X6 c 0) 0 - 0.576| < 1 / 1000 ∧
    |softmaxProb (fun c => vecShifted W6 X6 c 0) 1 - 0.212| < 1 / 1000 ∧
    |softmaxProb (fun c => vecShifted W6 X6 c 0) 2 - 0.212| < 1 / 1000 := by
  have he1 := Real.exp_one_gt_d9
  have he2 := Real.exp_one_lt_d9
  have hden : (0 : ℝ) < Real.exp 1 + 2 := by positivity
  have hp0a : (0.575 : ℝ) < Real.exp 1 / (Real.exp 1 + 2) := by
    rw [lt_div_iff₀ hden]
    linarith
  have hp0b : Real.exp 1 / (Real.exp 1 + 2) < 0.577 := by
    rw [div_lt_iff₀ hden]
    linarith
  have hp1a : (0.211 : ℝ) < 1 / (Real.exp 1 + 2) := by
    rw [lt_div_iff₀ hden]
    linarith
  have hp1b : (1 : ℝ) / (Real.exp 1 + 2) < 0.213 := by
    rw [div_lt_iff₀ hden]
    linarith
  refine ⟨?_, ?_, ?_⟩
  · rw [probshift6, prob6_val0, abs_lt]
    constructor <;> linarith
  · rw [probshift6, prob6_val1, abs_lt]
    constructor <;> linarith
  · rw [probshift6, prob6_val2, abs_lt]
    constructor <;> linarith

theorem loss6_eq : (loss_grad_softmax_vectorized W6 X6 y6 0).1
    = -Real.log (Real.exp 1 / (Real.exp 1 + 2)) := by
  rw [vectorized_eq_noshift, vectorized_noshift_eq_naive_noshift]
  unfold loss_grad_softmax_naive_noshift
  dsimp only
  rw [Fin.sum_univ_one]
  have hy : y6 0 = 0 := rfl
  rw [hy, prob6_val0]
  norm_num

theorem exp_taylor_lb : (1.737 : ℝ) ≤ Real.exp 0.5524 := by
  have habs : |(0.5524 : ℝ)| = 0.5524 := abs_of_nonneg (by norm_num)
  have h := Real.exp_bound (x := (0.5524 : ℝ)) (by rw [habs]; norm_num)
    (n := 6) (by norm_num)
  rw [habs] at h
  have hge := (abs_le.mp h).1
  have hS : (∑ m ∈ Finset.range 6, (0.5524 : ℝ) ^ m / m.factorial)
      - 0.5524 ^ 6 * (((6 : ℕ).succ : ℝ) / ((6 : ℕ).factorial * 6)) ≤ Real.exp 0.5524 := by
    linarith
  refine le_trans ?_ hS
  simp only [Finset.sum_range_succ, Finset.sum_range_zero, Nat.factorial, Nat.succ_eq_add_one]
  norm_num

theorem exp_taylor_ub : Real.exp 0.5504 ≤ (1.734 : ℝ) := by
  have habs : |(0.5504 : ℝ)| = 0.5504 := abs_of_nonneg (by norm_num)
  have h := Real.exp_bound (x := (0.5504 : ℝ)) (by rw [habs]; norm_num)
    (n := 6) (by norm_num)
  rw [habs] at h
  have hle := (abs_le.mp h).2
  have hS : Real.exp 0.5504 ≤ (∑ m ∈ Finset.range 6, (0.5504 : ℝ) ^ m / m.factorial)
      + 0.5504 ^ 6 * (((6 : ℕ).succ : ℝ) / ((6 : ℕ).factorial * 6)) := by
    linarith
  refine le_trans hS ?_
  simp only [Finset.sum_range_succ, Finset.sum_range_zero, Nat.factorial, Nat.succ_eq_add_one]
  norm_num

theorem log6_lb : (1.5504 : ℝ) < Real.log (Real.exp 1 + 2) := by
  have he1 := Real.exp_one_gt_d9
  have hden : (0 : ℝ) < Real.exp 1 + 2 := by positivity
  rw [Real.lt_log_iff_exp_lt hden]
  have hsplit : Real.exp (1.5504 : ℝ) = Real.exp 1 * Real.exp 0.5504 := by
    rw [← Real.exp_add]
    norm_num
  rw [hsplit]
  have he2 := Real.exp_one_lt_d9
  have h1 : Real.exp 1 * Real.exp 0.5504 ≤ Real.exp 1 * 1.734 :=
    mul_le_mul_of_nonneg_left exp_taylor_ub (Real.exp_pos 1).le
  have h2 : Real.exp 1 * (1.734 : ℝ) < 2.7182818286 * 1.734 := by
    have : (0 : ℝ) < 1.734 := by norm_num
    exact mul_lt_mul_of_pos_right he2 this
  nlinarith

theorem log6_ub : Real.log (Real.exp 1 + 2) < 1.5524 := by
  have he2 := Real.exp_one_lt_d9
  have hden : (0 : ℝ) < Real.exp 1 + 2 := by positivity
  rw [Real.log_lt_iff_lt_exp hden]
  have hsplit : Real.exp (1.5524 : ℝ) = Real.exp 1 * Real.exp 0.5524 := by
    rw [← Real.exp_add]
    norm_num
  rw [hsplit]
  have he1 := Real.exp_one_gt_d9
  have h1 : (2.7182818283 : ℝ) * 1.737 < Real.exp 1 * Real.exp 0.5524 := by
    have ha : (2.7182818283 : ℝ) * 1.737 < Real.exp 1 * 1.737 := by
      have : (0 : ℝ) < 1.737 := by norm_num
      exact mul_lt_mul_of_pos_right he1 this
    have hb : Real.exp 1 * (1.737 : ℝ) ≤ Real.exp 1 * Real.exp 0.5524 :=
      mul_le_mul_of_nonneg_left exp_taylor_lb (Real.exp_pos 1).le
    linarith
  nlinarith

theorem loss6_bound : |(loss_grad_softmax_vectorized W6 X6 y6 0).1 - 0.5514| < 1 / 1000 := by
  rw [loss6_eq]
  have hden : (0 : ℝ) < Real.exp 1 + 2 := by positivity
  have hval : -Real.log (Real.exp 1 / (Real.exp 1 + 2))
      = Real.log (Real.exp 1 + 2) - 1 := by
    rw [Real.log_div (Real.exp_ne_zero 1) hden.ne', Real.log_exp]
    ring
  rw [hval, abs_lt]
  have h1 := log6_lb
  have h2 := log6_ub
  constructor
  · linarith
  · linarith

theorem svmloss6 : (loss_grad_svm_vectorized W6 X6 y6 0).1 = 0 := by
  have hm : ∀ k : Fin 3, svmMargins W6 X6 y6 k 0 = 0 := by
    intro k
    fin_cases k <;>
      norm_num [svmMargins, y6, scoreMat, W6, X6, Fin.sum_univ_two]
  unfold loss_grad_svm_vectorized
  dsimp only
  have hsum : (∑ k : Fin 3, ∑ n : Fin 1, svmMargins W6 X6 y6 k n) = 0 := by
    refine Finset.sum_eq_zero fun k _ => ?_
    rw [Fin.sum_univ_one, hm k]
  rw [hsum]
  norm_num

/-- Claim C6: on the spec's concrete scenario (`K=3, D=2, N=1`,
`W = [[1,0],[0,1],[0,0]]`, `X = [[1],[0]]`, `y = [0]`, `reg = 0`) the softmax
implementations compute scores `[1,0,0]`, shifted scores `[0,−1,−1]` (both
the global and the per-sample shift), probabilities within `0.001` of
`[0.576, 0.212, 0.212]`, and a loss within `0.001` of `0.5514`, identical
between the naive and vectorized forms; `loss_grad_svm_vectorized` returns
loss exactly `0` on the same input. -/
theorem claim_C6_concrete_scenario :
    (fun c => scoreMat W6 X6 c 0) = ![(1 : ℝ), 0, 0] ∧
    (fun c => vecShifted W6 X6 c 0) = ![(0 : ℝ), -1, -1] ∧
    naiveShifted W6 X6 0 = ![(0 : ℝ), -1, -1] ∧
    (|softmaxProb (fun c => vecShifted W6 X6 c 0) 0 - 0.576| < 1 / 1000 ∧
     |softmaxProb (fun c => vecShifted W6 X6 c 0) 1 - 0.212| < 1 / 1000 ∧
     |softmaxProb (fun c => vecShifted W6 X6 c 0) 2 - 0.212| < 1 / 1000) ∧
    (loss_grad_softmax_naive W6 X6 y6 0).1 = (loss_grad_softmax_vectorized W6 X6 y6 0).1 ∧
    |(loss_grad_softmax_vectorized W6 X6 y6 0).1 - 0.5514| < 1 / 1000 ∧
    (loss_grad_svm_vectorized W6 X6 y6 0).1 = 0 :=
  ⟨score6, shifted6, nshifted6, prob6_bound,
   congrArg Prod.fst (naive_eq_vectorized W6 X6 y6 0), loss6_bound, svmloss6⟩

theorem naive_fold_spec {K D N : ℕ} [NeZero K] (W : Arr (Fin K → Fin D → ℝ))
    (X : Arr (Fin D → Fin N → ℝ)) (y : Arr (Fin N → Fin K)) :
    ∀ (l : List (Fin N)) (acc0 : (ℝ × Arr (Fin K → Fin D → ℝ)) × NpState),
      (l.foldl (fun acc i => naiveAllocStep W X y i acc) acc0).1.2.id = acc0.1.2.id ∧
      acc0.2.nextId ≤ (l.foldl (fun acc i => naiveAllocStep W X y i acc) acc0).2.nextId ∧
      (∀ j ∈ (l.foldl (fun acc i => naiveAllocStep W X y i acc) acc0).2.writtenIds,
        j ∈ acc0.2.writtenIds ∨ j = acc0.1.2.id ∨ acc0.2.nextId ≤ j) ∧
      (l.foldl (fun acc i => naiveAllocStep W X y i acc) acc0).1.1
        = acc0.1.1 + (l.map fun i => naiveSampleLoss W.data X.data y.data i).sum ∧
      ∀ (k : Fin K) (d : Fin D),
        (l.foldl (fun acc i => naiveAllocStep W X y i acc) acc0).1.2.data k d
          = acc0.1.2.data k d
            + (l.map fun i => naiveSampleGradTerm W.data X.data y.data i k d).sum := by
  intro l
  induction l with
  | nil =>
    intro acc0
    exact ⟨rfl, le_refl _, fun j hj => Or.inl hj, by simp, fun k d => by simp⟩
  | cons i t ih =>
    intro acc0
    simp only [List.foldl_cons, List.map_cons, List.sum_cons]
    obtain ⟨h1, h2, h3, h4, h5⟩ := ih (naiveAllocStep W X y i acc0)
    have hid : (naiveAllocStep W X y i acc0).1.2.id = acc0.1.2.id := rfl
    have hnext : (naiveAllocStep W X y i acc0).2.nextId = acc0.2.nextId + 3 := rfl
    have hwr : (naiveAllocStep W X y i acc0).2.writtenIds
        = acc0.1.2.id :: acc0.2.nextId :: acc0.2.nextId :: acc0.2.writtenIds := rfl
    have hloss : (naiveAllocStep W X y i acc0).1.1
        = acc0.1.1 + naiveSampleLoss W.data X.data y.data i := rfl
    have hdata : ∀ (k : Fin K) (d : Fin D), (naiveAllocStep W X y i acc0).1.2.data k d
        = acc0.1.2.data k d + naiveSampleGradTerm W.data X.data y.data i k d := by
      intro k d
      show acc0.1.2.data k d
          + softmaxProb (naiveShifted W.data X.data i) k * X.data d i
          - (if k = y.data i then X.data d i else 0) = _
      unfold naiveSampleGradTerm
      ring
    refine ⟨h1.trans hid, ?_, ?_, ?_, ?_⟩
    · rw [hnext] at h2
      omega
    · intro j hj
      rcases h3 j hj with hj1 | hj2 | hj3
      · rw [hwr] at hj1
        rcases List.mem_cons.mp hj1 with h | h
        · exact Or.inr (Or.inl h)
        · rcases List.mem_cons.mp h with h' | h'
          · subst h'
            exact Or.inr (Or.inr (le_refl _))
          · rcases List.mem_cons.mp h' with h'' | h''
            · subst h''
              exact Or.inr (Or.inr (le_refl _))
            · exact Or.inl h''
      · rw [hid] at hj2
        exact Or.inr (Or.inl hj2)
      · rw [hnext] at hj3
        exact Or.inr (Or.inr (by omega))
    · rw [h4, hloss]
      ring
    · intro k d
      rw [h5 k d, hdata k d]
      ring

theorem naive_alloc_spec {K D N : ℕ} [NeZero K] (W : Fin K → Fin D → ℝ)
    (X : Fin D → Fin N → ℝ) (y : Fin N → Fin K) (reg : ℝ) :
    (∀ j ∈ (loss_grad_softmax_naive_alloc ⟨0, W⟩ ⟨1, X⟩ ⟨2, y⟩ reg ⟨3, []⟩).2.writtenIds,
      3 ≤ j) ∧
    (loss_grad_softmax_naive_alloc ⟨0, W⟩ ⟨1, X⟩ ⟨2, y⟩ reg ⟨3, []⟩).1.2.id = 3 ∧
    ((loss_grad_softmax_naive_alloc ⟨0, W⟩ ⟨1, X⟩ ⟨2, y⟩ reg ⟨3, []⟩).1.1,
     (loss_grad_softmax_naive_alloc ⟨0, W⟩ ⟨1, X⟩ ⟨2, y⟩ reg ⟨3, []⟩).1.2.data)
      = loss_grad_softmax_naive W X y reg := by
  obtain ⟨h1, h2, h3, h4, h5⟩ := naive_fold_spec (⟨0, W⟩ : Arr _) (⟨1, X⟩ : Arr _)
    (⟨2, y⟩ : Arr _) (List.finRange N)
    ((0, ⟨3, fun _ _ => (0 : ℝ)⟩), ⟨4, []⟩)
  refine ⟨?_, ?_, ?_⟩
  · intro j hj
    have hj2 : j ∈ ((List.finRange N).foldl
          (fun acc i => naiveAllocStep (⟨0, W⟩ : Arr _) (⟨1, X⟩ : Arr _) (⟨2, y⟩ : Arr _) i acc)
          ((0, ⟨3, fun _ _ => (0 : ℝ)⟩), ⟨4, []⟩)).1.2.id
        :: ((List.finRange N).foldl
          (fun acc i => naiveAllocStep (⟨0, W⟩ : Arr _) (⟨1, X⟩ : Arr _) (⟨2, y⟩ : Arr _) i acc)
          ((0, ⟨3, fun _ _ => (0 : ℝ)⟩), ⟨4, []⟩)).1.2.id
        :: ((List.finRange N).foldl
          (fun acc i => naiveAllocStep (⟨0, W⟩ : Arr _) (⟨1, X⟩ : Arr _) (⟨2, y⟩ : Arr _) i acc)
          ((0, ⟨3, fun _ _ => (0 : ℝ)⟩), ⟨4, []⟩)).2.writtenIds := hj
    rcases List.mem_cons.mp hj2 with h | h
    · rw [h, h1]
    · rcases List.mem_cons.mp h with h' | h'
      · rw [h', h1]
      · rcases h3 j h' with hin | hin | hin
        · simp at hin
        · rw [hin]
        · dsimp only at hin
          omega
  · exact h1
  · have hragged : ∀ (k : Fin K) (d : Fin D),
        (loss_grad_softmax_naive_alloc ⟨0, W⟩ ⟨1, X⟩ ⟨2, y⟩ reg ⟨3, []⟩).1.2.data k d
          = (loss_grad_softmax_naive W X y reg).2 k d := by
      intro k d
      show ((List.finRange N).foldl
          (fun acc i => naiveAllocStep (⟨0, W⟩ : Arr _) (⟨1, X⟩ : Arr _) (⟨2, y⟩ : Arr _) i acc)
          ((0, ⟨3, fun _ _ => (0 : ℝ)⟩), ⟨4, []⟩)).1.2.data k d / N + reg * W k d = _
      rw [h5 k d]
      unfold loss_grad_softmax_naive
      dsimp only
      rw [Fin.sum_univ_def]
      ring
    have hloss : (loss_grad_softmax_naive_alloc ⟨0, W⟩ ⟨1, X⟩ ⟨2, y⟩ reg ⟨3, []⟩).1.1
        = (loss_grad_softmax_naive W X y reg).1 := by
      show ((List.finRange N).foldl
          (fun acc i => naiveAllocStep (⟨0, W⟩ : Arr _) (⟨1, X⟩ : Arr _) (⟨2, y⟩ : Arr _) i acc)
          ((0, ⟨3, fun _ _ => (0 : ℝ)⟩), ⟨4, []⟩)).1.1 / N + 0.5 * reg * sumSq W = _
      rw [h4]
      unfold loss_grad_softmax_naive
      dsimp only
      rw [Fin.sum_univ_def]
      ring
    rw [Prod.ext_iff]
    exact ⟨hloss, funext fun k => funext fun d => hragged k d⟩

theorem vectorized_alloc_spec {K D N : ℕ} [NeZero K] [NeZero N] (W : Fin K → Fin D → ℝ)
    (X : Fin D → Fin N → ℝ) (y : Fin N → Fin K) (reg : ℝ) :
    (loss_grad_softmax_vectorized_alloc ⟨0, W⟩ ⟨1, X⟩ ⟨2, y⟩ reg ⟨3, []⟩).2
      = ⟨10, [9, 9, 8, 4]⟩ ∧
    (loss_grad_softmax_vectorized_alloc ⟨0, W⟩ ⟨1, X⟩ ⟨2, y⟩ reg ⟨3, []⟩).1.2.id = 9 ∧
    ((loss_grad_softmax_vectorized_alloc ⟨0, W⟩ ⟨1, X⟩ ⟨2, y⟩ reg ⟨3, []⟩).1.1,
     (loss_grad_softmax_vectorized_alloc ⟨0, W⟩ ⟨1, X⟩ ⟨2, y⟩ reg ⟨3, []⟩).1.2.data)
      = loss_grad_softmax_vectorized W X y reg :=
  ⟨rfl, rfl, rfl⟩

theorem svm_alloc_spec {K D N : ℕ} (W : Fin K → Fin D → ℝ)
    (X : Fin D → Fin N → ℝ) (y : Fin N → Fin K) (reg : ℝ) :
    (loss_grad_svm_vectorized_alloc ⟨0, W⟩ ⟨1, X⟩ ⟨2, y⟩ reg ⟨3, []⟩).2
      = ⟨11, [8, 8, 7]⟩ ∧
    (loss_grad_svm_vectorized_alloc ⟨0, W⟩ ⟨1, X⟩ ⟨2, y⟩ reg ⟨3, []⟩).1.2.id = 10 ∧
    ((loss_grad_svm_vectorized_alloc ⟨0, W⟩ ⟨1, X⟩ ⟨2, y⟩ reg ⟨3, []⟩).1.1,
     (loss_grad_svm_vectorized_alloc ⟨0, W⟩ ⟨1, X⟩ ⟨2, y⟩ reg ⟨3, []⟩).1.2.data)
      = loss_grad_svm_vectorized W X y reg :=
  ⟨rfl, rfl, rfl⟩

/-- Claim C9: no objective function mutates its inputs. Running each function
in the buffer-identity model with `W`, `X`, `y` in buffers `0`, `1`, `2` and
fresh ids starting at `3`: every in-place write hits a buffer the function
allocated itself (no write to ids `0`, `1`, `2`, even through the `X[:, i]` /
`W[cls, :]` views), the returned gradient lives in a freshly allocated buffer,
and the returned values agree with the pure functions. -/
theorem claim_C9_no_input_mutation {K D N : ℕ} [NeZero K] [NeZero N]
    (W : Fin K → Fin D → ℝ) (X : Fin D → Fin N → ℝ) (y : Fin N → Fin K) (reg : ℝ) :
    ((∀ j ∈ (loss_grad_softmax_naive_alloc ⟨0, W⟩ ⟨1, X⟩ ⟨2, y⟩ reg ⟨3, []⟩).2.writtenIds,
        j ≠ 0 ∧ j ≠ 1 ∧ j ≠ 2) ∧
      (loss_grad_softmax_naive_alloc ⟨0, W⟩ ⟨1, X⟩ ⟨2, y⟩ reg ⟨3, []⟩).1.2.id ∉
        ([0, 1, 2] : List ℕ) ∧
      ((loss_grad_softmax_naive_alloc ⟨0, W⟩ ⟨1, X⟩ ⟨2, y⟩ reg ⟨3, []⟩).1.1,
       (loss_grad_softmax_naive_alloc ⟨0, W⟩ ⟨1, X⟩ ⟨2, y⟩ reg ⟨3, []⟩).1.2.data)
        = loss_grad_softmax_naive W X y reg) ∧
    ((∀ j ∈ (loss_grad_softmax_vectorized_alloc ⟨0, W⟩ ⟨1, X⟩ ⟨2, y⟩ reg ⟨3, []⟩).2.writtenIds,
        j ≠ 0 ∧ j ≠ 1 ∧ j ≠ 2) ∧
      (loss_grad_softmax_vectorized_alloc ⟨0, W⟩ ⟨1, X⟩ ⟨2, y⟩ reg ⟨3, []⟩).1.2.id ∉
        ([0, 1, 2] : List ℕ) ∧
      ((loss_grad_softmax_vectorized_alloc ⟨0, W⟩ ⟨1, X⟩ ⟨2, y⟩ reg ⟨3, []⟩).1.1,
       (loss_grad_softmax_vectorized_alloc ⟨0, W⟩ ⟨1, X⟩ ⟨2, y⟩ reg ⟨3, []⟩).1.2.data)
        = loss_grad_softmax_vectorized W X y reg) ∧
    ((∀ j ∈ (loss_grad_svm_vectorized_alloc ⟨0, W⟩ ⟨1, X⟩ ⟨2, y⟩ reg ⟨3, []⟩).2.writtenIds,
        j ≠ 0 ∧ j ≠ 1 ∧ j ≠ 2) ∧
      (loss_grad_svm_vectorized_alloc ⟨0, W⟩ ⟨1, X⟩ ⟨2, y⟩ reg ⟨3, []⟩).1.2.id ∉
        ([0, 1, 2] : List ℕ) ∧
      ((loss_grad_svm_vectorized_alloc ⟨0, W⟩ ⟨1, X⟩ ⟨2, y⟩ reg ⟨3, []⟩).1.1,
       (loss_grad_svm_vectorized_alloc ⟨0, W⟩ ⟨1, X⟩ ⟨2, y⟩ reg ⟨3, []⟩).1.2.data)
        = loss_grad_svm_vectorized W X y reg) := by
  obtain ⟨hn1, hn2, hn3⟩ := naive_alloc_spec W X y reg
  obtain ⟨hv1, hv2, hv3⟩ := vectorized_alloc_spec W X y reg
  obtain ⟨hs1, hs2, hs3⟩ := svm_alloc_spec W X y reg
  refine ⟨⟨?_, ?_, hn3⟩, ⟨?_, ?_, hv3⟩, ⟨?_, ?_, hs3⟩⟩
  · intro j hj
    have h3j := hn1 j hj
    omega
  · rw [hn2]
    decide
  · intro j hj
    rw [hv1] at hj
    simp only [NpState.writtenIds] at hj
    fin_cases hj <;> omega
  · rw [hv2]
    decide
  · intro j hj
    rw [hs1] at hj
    simp only [NpState.writtenIds] at hj
    fin_cases hj <;> omega
  · rw [hs2]
    decide

theorem claim_C9_no_input_mutation_witness :
    ((∀ j ∈ (loss_grad_softmax_naive_alloc ⟨0, W1⟩ ⟨1, X1⟩ ⟨2, y1⟩ 0 ⟨3, []⟩).2.writtenIds,
        j ≠ 0 ∧ j ≠ 1 ∧ j ≠ 2) ∧
      (loss_grad_softmax_naive_alloc ⟨0, W1⟩ ⟨1, X1⟩ ⟨2, y1⟩ 0 ⟨3, []⟩).1.2.id ∉
        ([0, 1, 2] : List ℕ) ∧
      ((loss_grad_softmax_naive_alloc ⟨0, W1⟩ ⟨1, X1⟩ ⟨2, y1⟩ 0 ⟨3, []⟩).1.1,
       (loss_grad_softmax_naive_alloc ⟨0, W1⟩ ⟨1, X1⟩ ⟨2, y1⟩ 0 ⟨3, []⟩).1.2.data)
        = loss_grad_softmax_naive W1 X1 y1 0) ∧
    ((∀ j ∈ (loss_grad_softmax_vectorized_alloc ⟨0, W1⟩ ⟨1, X1⟩ ⟨2, y1⟩ 0 ⟨3, []⟩).2.writtenIds,
        j ≠ 0 ∧ j ≠ 1 ∧ j ≠ 2) ∧
      (loss_grad_softmax_vectorized_alloc ⟨0, W1⟩ ⟨1, X1⟩ ⟨2, y1⟩ 0 ⟨3, []⟩).1.2.id ∉
        ([0, 1, 2] : List ℕ) ∧
      ((loss_grad_softmax_vectorized_alloc ⟨0, W1⟩ ⟨1, X1⟩ ⟨2, y1⟩ 0 ⟨3, []⟩).1.1,
       (loss_grad_softmax_vectorized_alloc ⟨0, W1⟩ ⟨1, X1⟩ ⟨2, y1⟩ 0 ⟨3, []⟩).1.2.data)
        = loss_grad_softmax_vectorized W1 X1 y1 0) ∧
    ((∀ j ∈ (loss_grad_svm_vectorized_alloc ⟨0, W1⟩ ⟨1, X1⟩ ⟨2, y1⟩ 0 ⟨3, []⟩).2.writtenIds,
        j ≠ 0 ∧ j ≠ 1 ∧ j ≠ 2) ∧
      (loss_grad_svm_vectorized_alloc ⟨0, W1⟩ ⟨1, X1⟩ ⟨2, y1⟩ 0 ⟨3, []⟩).1.2.id ∉
        ([0, 1, 2] : List ℕ) ∧
      ((loss_grad_svm_vectorized_alloc ⟨0, W1⟩ ⟨1, X1⟩ ⟨2, y1⟩ 0 ⟨3, []⟩).1.1,
       (loss_grad_svm_vectorized_alloc ⟨0, W1⟩ ⟨1, X1⟩ ⟨2, y1⟩ 0 ⟨3, []⟩).1.2.data)
        = loss_grad_svm_vectorized W1 X1 y1 0) :=
  claim_C9_no_input_mutation W1 X1 y1 0

end SoftmaxSVM
